import Mathlib

/-!
Shallow embedding of `prospector/client/cli/prospector_client.py` (project-kb).

The orchestration pipeline of that file is translated into pure Lean
functions.  External collaborators (the git repository object, the
commit filter, the rule engine, the feature extractor, the remote
preprocessing store and the wall clock) are modelled as components of an
`Env` record; the control flow of `prospector`, `prospector_find_twins`,
`retrieve_preprocessed_commits`, `tag_and_aggregate_commits`,
`get_commits` and the inline preprocessing loop is translated
statement by statement.  Python exceptions raised by collaborators are
modelled with `Except`; `requests` connection errors with a dedicated
`StoreResp` constructor.  The observable POST of the preprocessed
payload to the backend is surfaced as the second component of the
pipeline's result (`none` = no write).
-/

namespace ProspectorKB

/-- Source constant `SECS_PER_DAY` (line 32). -/
def SECS_PER_DAY : Int := 86400

/-- Source constant `THREE_YEARS` (line 35). -/
def THREE_YEARS : Int := 3 * 365 * SECS_PER_DAY

/-- Source constant `ONE_YEAR` (line 36). -/
def ONE_YEAR : Int := 365 * SECS_PER_DAY

/-- Source constant `MAX_CANDIDATES` (line 38). -/
def MAX_CANDIDATES : Nat := 2000

/-- A raw commit as produced by the repository collaborator; only the
fields the embedded code inspects are kept. -/
structure RawCommit where
  commit_id : String
  timestamp : Int
  msg : String
deriving DecidableEq

/-- A preprocessed commit.  The embedded code only reads/writes the id,
the (abstract) feature set, the tag list and the twin entries; twin
entries are the `[tag, otherCommitId]` pairs of the source, modelled as
`(tag, otherCommitId)`. -/
structure Commit where
  commit_id : String
  features : List String
  tags : List String
  twins : List (String × String)
deriving DecidableEq

/-- A record of the remote store's wire format (one JSON object of a
GET response / POST payload). -/
structure StoredCommit where
  commit_id : String
  features : List String
  tags : List String
  twins : List (String × String)
deriving DecidableEq

/-- Modelled from the spec: `Commit.parse_obj` (datamodel/commit.py is
not part of the excerpt).  Per the spec's round-trip property, parsing
a wire record yields a Commit with identical identity and feature-set
fields; the stored features are trusted without recomputation. -/
def Commit.parse_obj (rc : StoredCommit) : Commit :=
  { commit_id := rc.commit_id, features := rc.features,
    tags := rc.tags, twins := rc.twins }

/-- Modelled from the spec: `Commit.to_dict` (datamodel/commit.py is not
part of the excerpt), the inverse serialization to the wire format. -/
def Commit.to_dict (c : Commit) : StoredCommit :=
  { commit_id := c.commit_id, features := c.features,
    tags := c.tags, twins := c.twins }

/-- Modelled from the spec: `Commit.get_tag` (datamodel/commit.py is not
part of the excerpt): a commit's own resolved tag, with the sentinel
`"no-tag"` when unresolved (no tags). -/
def Commit.get_tag (c : Commit) : String :=
  c.tags.headD "no-tag"

/-- Modelled from the spec: `Commit.has_tag` (datamodel/commit.py is not
part of the excerpt): whether the commit's tag set contains `t`. -/
def Commit.has_tag (c : Commit) (t : String) : Bool :=
  c.tags.contains t

/-- The advisory record; only the fields the embedded code reads are
kept.  Python truthiness of `published_timestamp` is `≠ 0`. -/
structure AdvisoryRecord where
  published_timestamp : Int
  fixing_commit : List String
  files_extension : List String
  has_fixing_commit : Bool
deriving DecidableEq

/-- Outcome of one GET request to the remote store: a `requests`
connection error (exception), a non-200 status, or a 200 with a JSON
body. -/
inductive StoreResp where
  | connError : StoreResp
  | badStatus : StoreResp
  | ok : List StoredCommit → StoreResp

/-- The external collaborators of the pipeline (advisory construction,
git repository, filter, feature extraction, rule engine, remote store,
wall clock).  Fallible Python operations are modelled with `Except`:
an `Except.error` is a raised exception. -/
structure Env where
  advisory : AdvisoryRecord
  tags : List String
  get_possible_tags : List String → String → String × String
  create_commits :
    Option Int → Option Int → String → String → List String →
      List (String × RawCommit)
  find_commits_for_twin_lookups :
    String → Except String (List (String × RawCommit))
  filter_commits :
    List (String × RawCommit) →
      Except String (List (String × RawCommit) × Nat)
  make_from_raw_commit : Bool → RawCommit → Except String Commit
  apply_rules_and_ranking :
    List Commit → List String → Except String (List Commit)
  store_get : List String → StoreResp
  elapsed : Nat → Nat

/-- The keyword parameters of `prospector` the embedded control flow
reads, with the source's default values (lines 85-104). -/
structure Args where
  version_interval : String := ""
  time_limit_before : Int := -THREE_YEARS
  time_limit_after : Int := ONE_YEAR
  use_backend : String := "always"
  limit_candidates : Nat := MAX_CANDIDATES
  ignore_adv_refs : Bool := false
  rules : List String := ["ALL"]

/-- Python dict union `a | b` over id-keyed commit maps: entries of `b`
override entries of `a` on key collision (line 53). -/
def dict_union (a b : List (String × RawCommit)) :
    List (String × RawCommit) :=
  a.filter (fun p => !(b.any (fun q => q.1 == p.1))) ++ b

/-- Structural helper for `chunked`: the fuel starts at the list length
and strictly dominates it throughout, so the fuel-exhausted branch is
unreachable. -/
def chunkedFuel : Nat → List String → List (List String)
  | _, [] => []
  | 0, l => [l]
  | fuel + 1, l => l.take 500 :: chunkedFuel fuel (l.drop 500)

/-- The batching of line 333: candidate ids partitioned into successive
chunks of 500. -/
def chunked (l : List String) : List (List String) :=
  chunkedFuel l.length l

/-- The GET loop of lines 333-341: one request per batch; a connection
error propagates as an exception, a non-200 stops the loop keeping the
responses already received. -/
def collect_responses (store : List String → StoreResp) :
    List (List String) → Except Unit (List (List StoredCommit))
  | [] => Except.ok []
  | b :: bs =>
    match store b with
    | .connError => Except.error ()
    | .badStatus => Except.ok []
    | .ok body =>
      match collect_responses store bs with
      | .error e => Except.error e
      | .ok rest => Except.ok (body :: rest)

/-- `retrieve_preprocessed_commits` (lines 326-360).  The candidate dict
is an id-keyed association list; the returned pair is (missing raw
commits, deserialized cache hits). -/
def retrieve_preprocessed_commits (store : List String → StoreResp)
    (candidates : List (String × RawCommit)) :
    Except Unit (List RawCommit × List Commit) :=
  match collect_responses store (chunked (candidates.map Prod.fst)) with
  | .error e => .error e
  | .ok responses =>
    let retrieved := responses.flatten
    let missing : List RawCommit :=
      if retrieved.length ≠ candidates.length then
        (candidates.filter
            (fun p => !(retrieved.any (fun rc => rc.commit_id == p.1)))).map
          Prod.snd
      else []
    .ok (missing, retrieved.map Commit.parse_obj)

/-- Spec-side definition (for claim C4): the literal set difference
`candidateIds − idsReturnedByStore`, as the sublist of candidate values
whose keys are not among the returned ids. -/
def cache_diff_spec (candidates : List (String × RawCommit))
    (returned_ids : List String) : List RawCommit :=
  (candidates.filter (fun p => !(returned_ids.any (fun i => i == p.1)))).map
    Prod.snd

/-- The dict comprehension of line 306 mapping each input commit's id to
its own resolved tag. -/
def twin_tags_map (commits : List Commit) : List (String × String) :=
  commits.map (fun c => (c.commit_id, c.get_tag))

/-- Python `dict.get(key, "no-tag")` over `twin_tags_map`; a dict built
by comprehension keeps the last binding of a duplicated key, hence the
reversed search. -/
def lookup_twin_tag (m : List (String × String)) (id : String) : String :=
  match m.reverse.find? (fun p => p.1 == id) with
  | some p => p.2
  | none => "no-tag"

/-- Spec-side description of what aggregation does to a surviving
commit: singleton tag list, twin tags rewritten through the lookup. -/
def survivor_rewrite (m : List (String × String)) (t : String)
    (c : Commit) : Commit :=
  { c with tags := [t],
           twins := c.twins.map (fun tw => (lookup_twin_tag m tw.2, tw.2)) }

/-- The loop of lines 308-313: keep commits carrying `next_tag`,
overwrite their tag list with the singleton and rewrite their twin
entries' tag fields through the (pre-built) lookup. -/
def tag_and_aggregate_loop (m : List (String × String)) (next_tag : String) :
    List Commit → List Commit
  | [] => []
  | c :: rest =>
    if c.has_tag next_tag then
      { c with tags := [next_tag],
               twins := c.twins.map
                 (fun tw => (lookup_twin_tag m tw.2, tw.2)) }
        :: tag_and_aggregate_loop m next_tag rest
    else tag_and_aggregate_loop m next_tag rest

/-- `tag_and_aggregate_commits` (lines 302-323); `none` models Python
`None`. -/
def tag_and_aggregate_commits (commits : List Commit)
    (next_tag : Option String) : List Commit :=
  match next_tag with
  | none => commits
  | some t =>
    if t = "" then commits
    else tag_and_aggregate_loop (twin_tags_map commits) t commits

/-- Result of the inline preprocessing loop of lines 222-244: an
exception from feature extraction, the adaptive overload abort carrying
the counter value at the abort, or the completed commit list. -/
inductive LoopRes where
  | failed : String → LoopRes
  | aborted : Nat → LoopRes
  | done : List Commit → LoopRes
deriving DecidableEq

/-- The preprocessing loop of lines 230-244: `total` is
`len(candidates)`, `elapsed n` the wall time observed after the n-th
iteration, `acc` the commits preprocessed so far (cache hits included)
and `counter` the running count of locally preprocessed commits. -/
def preprocess_missing (make : RawCommit → Except String Commit)
    (elapsed : Nat → Nat) (total : Nat) :
    List RawCommit → List Commit → Nat → LoopRes
  | [], acc, _ => .done acc
  | rc :: rest, acc, counter =>
    match make rc with
    | .error e => .failed e
    | .ok commit =>
      if (counter + 1) % 100 = 0 ∧ elapsed (counter + 1) > (counter + 1) * 2
          ∧ total > 1000 then .aborted (counter + 1)
      else preprocess_missing make elapsed total rest (acc ++ [commit])
        (counter + 1)

/-- Outcome of lines 198-217: either `sys.exit(0)` (backend required but
unreachable) or the `(missing, preprocessed_commits)` state entering the
loop. -/
inductive CachePhase where
  | exited : CachePhase
  | proceed : List RawCommit → List Commit → CachePhase
deriving DecidableEq

/-- Lines 198-217: the backend lookup guarded by `use_backend`, the
connection-error handler and the `"missing" not in locals()` default. -/
def cache_phase (store : List String → StoreResp) (use_backend : String)
    (candidates : List (String × RawCommit)) : CachePhase :=
  if use_backend ≠ "never" then
    match retrieve_preprocessed_commits store candidates with
    | .error _ =>
      if use_backend = "always" then .exited
      else .proceed (candidates.map Prod.snd) []
    | .ok (m, p) => .proceed m p
  else .proceed (candidates.map Prod.snd) []

/-- Lines 423-428: the since/until bounds of the candidate window.  The
time-bounded window exists only when the advisory has a (truthy)
publication timestamp and neither tag resolved. -/
def candidate_window (published : Int) (prev_tag next_tag : String)
    (time_limit_before time_limit_after : Int) : Option Int × Option Int :=
  if published ≠ 0 ∧ next_tag = "" ∧ prev_tag = "" then
    (some (published - time_limit_before),
     some (published + time_limit_after))
  else (none, none)

/-- `get_commits` (lines 410-444) reduced to its semantics: compute the
window and ask the repository collaborator for the candidates. -/
def get_commits (env : Env) (prev_tag next_tag : String)
    (time_limit_before time_limit_after : Int) :
    List (String × RawCommit) :=
  let w := candidate_window env.advisory.published_timestamp prev_tag
    next_tag time_limit_before time_limit_after
  env.create_commits w.1 w.2 next_tag prev_tag env.advisory.files_extension

/-- `prospector_find_twins` (lines 45-80): union the twin lookups of the
deduplicated ids, filter, normalize with the simplified pass, rank with
the full rule set and truncate to the top 100. -/
def prospector_find_twins (env : Env) (commit_ids : List String) :
    Except String (List Commit × AdvisoryRecord) := do
  let commits0 ← commit_ids.eraseDups.foldlM
    (fun acc cid => do
      let m ← env.find_commits_for_twin_lookups cid
      pure (dict_union acc m))
    []
  let fc ← env.filter_commits commits0
  let preprocessed ← fc.1.mapM (fun p => env.make_from_raw_commit true p.2)
  let ranked ← env.apply_rules_and_ranking preprocessed ["ALL"]
  pure (ranked.take 100, env.advisory)

/-- The final value of a run: a ranked list with the advisory, the
`(None, n)` sentinel pair, or `sys.exit(0)`. -/
inductive RunResult where
  | success : List Commit → AdvisoryRecord → RunResult
  | sentinel : Int → RunResult
  | exited : RunResult
deriving DecidableEq

/-- Line 253: the guard of `save_preprocessed_commits`; `some payload`
models the POST of the payload to the backend, `none` no write. -/
def save_decision (use_backend : String) (missing : List RawCommit)
    (payload : List StoredCommit) : Option (List StoredCommit) :=
  if payload.length > 0 ∧ use_backend ≠ "never" ∧ missing.length > 0 then
    some payload
  else none

/-- Lines 194-264: preprocessing (cache reconciliation, local loop with
the overload abort, backend persistence), ranking and tag aggregation,
entered once the (already filtered) candidates passed the hard cap.
The second component records the payload POSTed to the backend
(computed before ranking runs, as in the source). -/
def pipeline_tail (env : Env) (a : Args) (next_tag : String)
    (candidates : List (String × RawCommit)) :
    Except String RunResult × Option (List StoredCommit) :=
  match cache_phase env.store_get a.use_backend candidates with
  | .exited => (.ok .exited, none)
  | .proceed missing pre0 =>
    match (if missing.length > 0 then
        preprocess_missing (env.make_from_raw_commit false)
          env.elapsed candidates.length missing pre0 0
      else .done pre0) with
    | .failed e => (.error e, none)
    | .aborted _ => (.ok (.sentinel candidates.length), none)
    | .done preprocessed =>
      (match env.apply_rules_and_ranking preprocessed a.rules with
       | .error e => .error e
       | .ok ranked =>
         .ok (.success
           (tag_and_aggregate_commits ranked (some next_tag))
           env.advisory),
       save_decision a.use_backend missing
         (preprocessed.map Commit.to_dict))

/-- Lines 158-264: the pipeline after the twin short-circuit -- interval
check, tag resolution, candidate retrieval, filtering, hard cap, then
`pipeline_tail`. -/
def prospector_main_pipeline (env : Env) (a : Args) :
    Except String RunResult × Option (List StoredCommit) :=
  if a.version_interval = "" then (.ok (.sentinel (-1)), none)
  else
    match env.get_possible_tags env.tags a.version_interval with
    | (prev_tag, next_tag) =>
      if prev_tag = "" ∧ next_tag = "" then (.ok (.sentinel (-1)), none)
      else
        match env.filter_commits
            (get_commits env prev_tag next_tag a.time_limit_before
              a.time_limit_after) with
        | .error e => (.error e, none)
        | .ok (candidates, _) =>
          if candidates.length > a.limit_candidates then
            (.ok (.sentinel candidates.length), none)
          else pipeline_tail env a next_tag candidates

/-- `prospector` (lines 85-264): the twin short-circuit of lines 141-157
followed by the main pipeline. -/
def prospector (env : Env) (a : Args) :
    Except String RunResult × Option (List StoredCommit) :=
  if 0 < env.advisory.fixing_commit.length ∧ a.ignore_adv_refs = false then
    match prospector_find_twins env env.advisory.fixing_commit with
    | .ok (commits, advisory) =>
      if 0 < commits.length ∧
          commits.any
            (fun c => env.advisory.fixing_commit.contains c.commit_id)
            = true then
        (.ok (.success commits { advisory with has_fixing_commit := true }),
         none)
      else prospector_main_pipeline env a
    | .error _ => prospector_main_pipeline env a
  else prospector_main_pipeline env a

/-- The twin short-circuit does not succeed: it is skipped, raises, or
returns no commit matching the supplied ids. -/
def TwinNotSucceeding (env : Env) (a : Args) : Prop :=
  env.advisory.fixing_commit.length = 0 ∨ a.ignore_adv_refs = true
  ∨ (∃ e, prospector_find_twins env env.advisory.fixing_commit = .error e)
  ∨ (∃ cs adv,
      prospector_find_twins env env.advisory.fixing_commit = .ok (cs, adv)
      ∧ ¬ (0 < cs.length ∧
        cs.any (fun c => env.advisory.fixing_commit.contains c.commit_id)
          = true))

/-! Concrete data used by counterexamples and witnesses. -/

/-- An advisory with no referenced fixing commits. -/
def trivialAdvisory : AdvisoryRecord := ⟨0, [], [], false⟩

/-- A neutral environment: identity-like collaborators over empty data;
individual scenarios override the relevant fields. -/
def baseEnv : Env :=
  { advisory := trivialAdvisory,
    tags := [],
    get_possible_tags := fun _ _ => ("", ""),
    create_commits := fun _ _ _ _ _ => [],
    find_commits_for_twin_lookups := fun _ => .ok [],
    filter_commits := fun l => .ok (l, 0),
    make_from_raw_commit := fun _ rc => .ok ⟨rc.commit_id, [], [], []⟩,
    apply_rules_and_ranking := fun cs _ => .ok cs,
    store_get := fun _ => .badStatus,
    elapsed := fun _ => 0 }

def rawA : RawCommit := ⟨"a", 0, ""⟩
def rawB : RawCommit := ⟨"b", 0, ""⟩
def rawC : RawCommit := ⟨"c", 0, ""⟩

/-- Stored-feature records the remote store holds for `a` and `c`. -/
def storedA : StoredCommit := ⟨"a", ["fa"], ["v2"], []⟩
def storedC : StoredCommit := ⟨"c", ["fc"], ["v2"], []⟩

/-- The commit the local preprocessing of `rawB` produces in the C1
scenario (`make_from_raw_commit` of `envC1`). -/
def commitB : Commit := ⟨"b", [], ["v2"], []⟩

/-- C1 scenario: candidates `a`, `b`, `c`; the store has `a` and `c`. -/
def envC1 : Env :=
  { baseEnv with
    tags := ["v1", "v2"],
    get_possible_tags := fun _ _ => ("v1", "v2"),
    create_commits := fun _ _ _ _ _ => [("a", rawA), ("b", rawB), ("c", rawC)],
    make_from_raw_commit := fun _ rc => .ok ⟨rc.commit_id, [], ["v2"], []⟩,
    store_get := fun _ => .ok [storedA, storedC] }

def argsC1 : Args := { version_interval := "v1:v2" }

/-- A feature extractor that always succeeds (C3 witness). -/
def mkOk : RawCommit → Except String Commit :=
  fun rc => .ok ⟨rc.commit_id, [], [], []⟩

/-- A clock whose elapsed time always exceeds twice the processed count
(C3 witness). -/
def elBig : Nat → Nat := fun _ => 1000000000

/-- C3 scenario: 1001 candidates, backend disabled (so all candidates
are missing), slow clock. -/
def envC3 : Env :=
  { baseEnv with
    tags := ["v1", "v2"],
    get_possible_tags := fun _ _ => ("v1", "v2"),
    create_commits := fun _ _ _ _ _ => List.replicate 1001 ("x", rawA),
    make_from_raw_commit := fun _ => mkOk,
    elapsed := elBig }

def argsC3 : Args := { version_interval := "v1:v2", use_backend := "never" }

/-- C4 counterexample store: answers any query with a single record
whose id `b` was never asked for. -/
def storeForeign : List String → StoreResp := fun _ => .ok [⟨"b", [], [], []⟩]

/-- C4 witness store: returns the record for `a` only. -/
def storeHitA : List String → StoreResp := fun _ => .ok [storedA]

/-- C5 scenario: 2001 candidates survive filtering, ceiling 2000. -/
def envC5 : Env :=
  { baseEnv with
    tags := ["v1", "v2"],
    get_possible_tags := fun _ _ => ("v1", "v2"),
    create_commits := fun _ _ _ _ _ => List.replicate 2001 ("x", rawA) }

def argsC5 : Args := { version_interval := "v1:v2" }

/-- C6 scenario (i): empty interval string; the repository has tags. -/
def envC6 : Env := { baseEnv with tags := ["v1", "v2"] }

def argsC6 : Args := { version_interval := "" }

/-- C6 scenario (ii): an interval is supplied but neither bound resolves
to a tag. -/
def envC6b : Env := { baseEnv with tags := ["v1", "v2"] }

def argsC6b : Args := { version_interval := "8.0:9.0" }

/-- The raw twin-lookup result and the advisory of the C7 scenario. -/
def rawAbc : RawCommit := ⟨"abc123", 0, ""⟩
def rawDef : RawCommit := ⟨"def456", 0, ""⟩

def advisoryC7 : AdvisoryRecord := ⟨0, ["abc123"], [], false⟩

/-- C7 scenario: the advisory names `abc123`; the twin lookup finds it
together with its twin `def456`. -/
def envC7 : Env :=
  { baseEnv with
    advisory := advisoryC7,
    find_commits_for_twin_lookups :=
      fun _ => .ok [("abc123", rawAbc), ("def456", rawDef)] }

def argsC7 : Args := {}

/-- C8 scenario: the advisory names a fixing commit but the twin lookup
raises. -/
def envC8 : Env :=
  { baseEnv with
    advisory := advisoryC7,
    find_commits_for_twin_lookups := fun _ => .error "repo unreachable" }

def argsC8 : Args := { version_interval := "v1:v2" }

/-- C9 scenario commits (the spec's tag-aggregation example). -/
def c1x : Commit := ⟨"c1", [], ["v1.0", "v1.1"], [("old", "c2"), ("old", "zz")]⟩
def c2x : Commit := ⟨"c2", [], ["v0.9"], []⟩

/-- C10 scenario: every candidate is found in the remote store. -/
def envC10 : Env :=
  { baseEnv with
    tags := ["v1", "v2"],
    get_possible_tags := fun _ _ => ("v1", "v2"),
    create_commits := fun _ _ _ _ _ => [("a", rawA), ("c", rawC)],
    store_get := fun _ => .ok [storedA, storedC] }

def argsC10 : Args := { version_interval := "v1:v2" }

/-! Theorems. -/

/-- Helper: the aggregation loop keeps exactly the commits carrying the
tag and rewrites survivors through the given lookup. -/
theorem tag_loop_eq (m : List (String × String)) (t : String) :
    ∀ l : List Commit, tag_and_aggregate_loop m t l
      = (l.filter (fun c => c.has_tag t)).map (survivor_rewrite m t)
  | [] => rfl
  | c :: rest => by
    by_cases h : c.has_tag t
    · simp [tag_and_aggregate_loop, h, tag_loop_eq m t rest,
        survivor_rewrite]
    · simp [tag_and_aggregate_loop, h, tag_loop_eq m t rest]

/-- Helper: the twin-tag lookup defaults to the sentinel for ids not
among the input commits. -/
theorem lookup_default (commits : List Commit) (i : String)
    (h : i ∉ commits.map Commit.commit_id) :
    lookup_twin_tag (twin_tags_map commits) i = "no-tag" := by
  unfold lookup_twin_tag
  have hnone :
      (twin_tags_map commits).reverse.find? (fun p => p.1 == i) = none := by
    apply List.find?_eq_none.mpr
    intro p hp
    simp only [List.mem_reverse, twin_tags_map, List.mem_map] at hp
    obtain ⟨c, hc, rfl⟩ := hp
    simp only [beq_iff_eq]
    intro hEq
    exact h (List.mem_map.mpr ⟨c, hc, hEq⟩)
  rw [hnone]

/-- Claim C9: with a non-empty `nextTag`, aggregation retains exactly the
ranked commits whose tag set contains `nextTag`, overwrites each
survivor's tag list to the singleton `[nextTag]` and rewrites each twin
entry's tag field via the lookup built from all input commits' original
tags, defaulting to `"no-tag"` for twin ids not among the inputs; with
`nextTag` absent or empty the stage returns its input unchanged. -/
theorem C9_tag_aggregation (commits : List Commit) (t : String)
    (ht : t ≠ "") :
    tag_and_aggregate_commits commits (some t)
      = (commits.filter (fun c => c.has_tag t)).map
          (survivor_rewrite (twin_tags_map commits) t)
    ∧ (∀ i, i ∉ commits.map Commit.commit_id →
        lookup_twin_tag (twin_tags_map commits) i = "no-tag")
    ∧ tag_and_aggregate_commits commits none = commits
    ∧ tag_and_aggregate_commits commits (some "") = commits := by
  refine ⟨?_, fun i hi => lookup_default commits i hi, rfl, rfl⟩
  show (if t = "" then commits
    else tag_and_aggregate_loop (twin_tags_map commits) t commits) = _
  rw [if_neg ht]
  exact tag_loop_eq (twin_tags_map commits) t commits

/-- Witness for C9 at the spec's example: `c1` (tags v1.0, v1.1) survives
with tags overwritten to `[v1.1]` and twin tags rewritten from the
original tags of the inputs; `c2` (tags v0.9) is dropped. -/
theorem C9_tag_aggregation_witness :
    tag_and_aggregate_commits [c1x, c2x] (some "v1.1")
      = [{ commit_id := "c1", features := [], tags := ["v1.1"],
           twins := [("v0.9", "c2"), ("no-tag", "zz")] }]
    ∧ lookup_twin_tag (twin_tags_map [c1x, c2x]) "zz" = "no-tag" := by
  have h := C9_tag_aggregation [c1x, c2x] "v1.1" (by decide)
  exact ⟨h.1.trans (by decide), h.2.1 "zz" (by decide)⟩

/-- Claim C2: the code does compute the window as
`(published - time_limit_before, published + time_limit_after)` when no
tag resolved and a publication timestamp exists, but with the source's
default parameters (`time_limit_before = -THREE_YEARS`, line 93) the
lower bound is `published + 3 years`, not `published - 3 years`: the
default window `[published + 3y, published + 1y]` is empty and lies
entirely after publication, contradicting the source's own comment
(lines 28-30) and the spec. -/
theorem C2_window_defaults :
    candidate_window 1000000000 "" "" ({} : Args).time_limit_before
        ({} : Args).time_limit_after
      = (some (1000000000 + THREE_YEARS), some (1000000000 + ONE_YEAR))
    ∧ 1000000000 + THREE_YEARS > 1000000000 + ONE_YEAR := by
  constructor
  · rfl
  · decide

/-- Helper: with a non-empty interval, resolved tags and a filter
result, the main pipeline reduces to the hard-cap check followed by
`pipeline_tail`. -/
theorem main_pipeline_reduce (env : Env) (a : Args) (p n : String)
    (cands : List (String × RawCommit)) (rej : Nat)
    (hiv : a.version_interval ≠ "")
    (hgpt : env.get_possible_tags env.tags a.version_interval = (p, n))
    (hpn : ¬(p = "" ∧ n = ""))
    (hfilter : env.filter_commits
      (get_commits env p n a.time_limit_before a.time_limit_after)
      = .ok (cands, rej)) :
    prospector_main_pipeline env a =
      if cands.length > a.limit_candidates then
        (.ok (.sentinel cands.length), none)
      else pipeline_tail env a n cands := by
  unfold prospector_main_pipeline
  rw [if_neg hiv, hgpt]
  show (if p = "" ∧ n = "" then _ else _) = _
  rw [if_neg hpn, hfilter]

/-- Helper: the preprocessing loop can only abort at a counter value
that is a multiple of 100, with the elapsed time above twice the
counter, and only when the candidate total exceeds 1000. -/
theorem preprocess_aborted_inv (make : RawCommit → Except String Commit)
    (elapsed : Nat → Nat) (total : Nat) :
    ∀ (missing : List RawCommit) (acc : List Commit) (counter k : Nat),
      preprocess_missing make elapsed total missing acc counter
        = .aborted k →
      k % 100 = 0 ∧ elapsed k > k * 2 ∧ total > 1000
  | [], _, _, _ => by
    intro h
    exact absurd h (by simp [preprocess_missing])
  | rc :: rest, acc, counter, k => by
    intro h
    unfold preprocess_missing at h
    cases hm : make rc with
    | error e => rw [hm] at h; cases h
    | ok commit =>
      rw [hm] at h
      by_cases hc : (counter + 1) % 100 = 0
          ∧ elapsed (counter + 1) > (counter + 1) * 2 ∧ total > 1000
      · simp only [if_pos hc] at h
        injection h with hk
        rw [← hk]
        exact hc
      · simp only [if_neg hc] at h
        exact preprocess_aborted_inv make elapsed total rest (acc ++ [commit])
          (counter + 1) k h

/-- Helper: with more than 1000 candidates, a clock already above the
threshold at the first checkpoint and a non-failing feature extractor,
the loop reaches the checkpoint at 100 processed commits and aborts
there. -/
theorem preprocess_aborts_at_100 (make : RawCommit → Except String Commit)
    (elapsed : Nat → Nat) (total : Nat) (htotal : total > 1000)
    (hfast : elapsed 100 > 100 * 2)
    (hmk : ∀ rc, ∃ cm, make rc = .ok cm) :
    ∀ (missing : List RawCommit) (acc : List Commit) (counter : Nat),
      counter < 100 → 100 ≤ counter + missing.length →
      preprocess_missing make elapsed total missing acc counter
        = .aborted 100 := by
  intro missing
  induction missing with
  | nil =>
    intro acc counter h1 h2
    simp only [List.length_nil] at h2
    omega
  | cons rc rest ih =>
    intro acc counter h1 h2
    obtain ⟨cm, hcm⟩ := hmk rc
    unfold preprocess_missing
    rw [hcm]
    by_cases h100 : counter + 1 = 100
    · have hcond : (counter + 1) % 100 = 0
          ∧ elapsed (counter + 1) > (counter + 1) * 2 ∧ total > 1000 := by
        rw [h100]
        exact ⟨by decide, hfast, htotal⟩
      simp only [if_pos hcond]
      rw [h100]
    · have hcond : ¬((counter + 1) % 100 = 0
          ∧ elapsed (counter + 1) > (counter + 1) * 2 ∧ total > 1000) := by
        intro hcon
        have hm := hcon.1
        omega
      simp only [if_neg hcond]
      apply ih (acc ++ [cm]) (counter + 1) (by omega)
      simp only [List.length_cons] at h2
      omega

/-- Claim C3: the adaptive overload abort fires only at a processed
count that is a multiple of 100 with elapsed wall time above twice that
count and more than 1000 candidates; it never fires when the candidate
count is at most 1000; when the loop aborts inside the pipeline the
run returns the sentinel `(absent, candidateCount)`; and with more than
1000 candidates, at least 100 missing commits, a non-failing extractor
and a clock already above the threshold, the abort does fire, at the
checkpoint 100. -/
theorem C3_overload_abort (make : RawCommit → Except String Commit)
    (elapsed : Nat → Nat) (total : Nat) (missing : List RawCommit)
    (acc : List Commit) (counter k : Nat) :
    (preprocess_missing make elapsed total missing acc counter
        = .aborted k →
      k % 100 = 0 ∧ elapsed k > k * 2 ∧ total > 1000)
    ∧ (total ≤ 1000 →
      preprocess_missing make elapsed total missing acc counter
        ≠ .aborted k)
    ∧ (∀ (env : Env) (a : Args) (p n : String)
        (cands : List (String × RawCommit)) (rej : Nat)
        (missing0 : List RawCommit) (pre0 : List Commit),
        a.version_interval ≠ "" →
        env.get_possible_tags env.tags a.version_interval = (p, n) →
        ¬(p = "" ∧ n = "") →
        env.filter_commits
          (get_commits env p n a.time_limit_before a.time_limit_after)
          = .ok (cands, rej) →
        ¬ cands.length > a.limit_candidates →
        cache_phase env.store_get a.use_backend cands
          = .proceed missing0 pre0 →
        0 < missing0.length →
        preprocess_missing (env.make_from_raw_commit false) env.elapsed
          cands.length missing0 pre0 0 = .aborted k →
        prospector_main_pipeline env a
          = (.ok (.sentinel cands.length), none))
    ∧ (total > 1000 → elapsed 100 > 100 * 2 →
        (∀ rc, ∃ cm, make rc = .ok cm) → 100 ≤ missing.length →
        preprocess_missing make elapsed total missing acc 0
          = .aborted 100) := by
  refine ⟨preprocess_aborted_inv make elapsed total missing acc counter k,
    ?_, ?_, ?_⟩
  · intro hle habort
    have := (preprocess_aborted_inv make elapsed total missing acc counter k
      habort).2.2
    omega
  · intro env a p n cands rej missing0 pre0 hiv hgpt hpn hfilter hcap
      hcache hm0 habort
    rw [main_pipeline_reduce env a p n cands rej hiv hgpt hpn hfilter,
      if_neg hcap]
    unfold pipeline_tail
    rw [hcache]
    simp only [if_pos hm0, habort]
  · intro htotal hfast hmk hlen
    exact preprocess_aborts_at_100 make elapsed total htotal hfast hmk
      missing acc 0 (by omega) (by omega)

/-- Witness for C3: with 1001 candidates, the backend disabled and a
clock above twice the processed count, the loop aborts exactly at the
first checkpoint (100) and the pipeline returns the sentinel pair with
the candidate count 1001. -/
theorem C3_overload_abort_witness :
    prospector_main_pipeline envC3 argsC3 = (.ok (.sentinel 1001), none)
    ∧ (100 % 100 = 0 ∧ elBig 100 > 100 * 2) := by
  have h := C3_overload_abort mkOk elBig
    ((List.replicate 1001 ("x", rawA)).length)
    ((List.replicate 1001 ("x", rawA)).map Prod.snd) [] 0 100
  have habort : preprocess_missing mkOk elBig
      ((List.replicate 1001 ("x", rawA)).length)
      ((List.replicate 1001 ("x", rawA)).map Prod.snd) [] 0
      = .aborted 100 :=
    h.2.2.2 (by rw [List.length_replicate]; omega) (by decide)
      (fun rc => ⟨⟨rc.commit_id, [], [], []⟩, rfl⟩)
      (by rw [List.length_map, List.length_replicate]; omega)
  have hmain := h.2.2.1 envC3 argsC3 "v1" "v2"
    (List.replicate 1001 ("x", rawA)) 0
    ((List.replicate 1001 ("x", rawA)).map Prod.snd) []
    (by decide) rfl (by decide) rfl
    (by rw [List.length_replicate]; decide) rfl
    (by rw [List.length_map, List.length_replicate]; omega) habort
  have hcond := h.1 habort
  refine ⟨?_, hcond.1, hcond.2.1⟩
  have hl : (((List.replicate 1001 ("x", rawA)).length : Nat) : Int)
      = 1001 := by rw [List.length_replicate]; rfl
  rw [hmain, hl]

/-- Helper: a nodup list included in a list of no greater length
exhausts it. -/
theorem mem_of_nodup_subset_len (ks kc : List String) (hn : ks.Nodup)
    (hsub : ∀ x ∈ ks, x ∈ kc) (hlen : kc.length ≤ ks.length) :
    ∀ x ∈ kc, x ∈ ks := by
  have hks : ks ⊆ kc := by intro x hx; exact hsub x hx
  have hsp : List.Subperm ks kc := hn.subperm hks
  have hperm := hsp.perm_of_length_le hlen
  intro x hx
  exact hperm.mem_iff.mpr hx

/-- Helper: membership tests through the projected id list and through
the records coincide. -/
theorem any_commit_id (l : List StoredCommit) (x : String) :
    ((l.map StoredCommit.commit_id).any (fun i => i == x))
      = l.any (fun rc => rc.commit_id == x) := by
  induction l with
  | nil => rfl
  | cons hd tl ih => simp [ih]

/-- Helper: inversion of `retrieve_preprocessed_commits`: the hits are
the parsed response records, and the missing list is the literal set
difference when the length shortcut fires and empty otherwise. -/
theorem retrieve_ok_cases (store : List String → StoreResp)
    (candidates : List (String × RawCommit)) (m : List RawCommit)
    (cs : List Commit)
    (hok : retrieve_preprocessed_commits store candidates = .ok (m, cs)) :
    ∃ retrieved : List StoredCommit,
      cs = retrieved.map Commit.parse_obj
      ∧ ((m = cache_diff_spec candidates (cs.map Commit.commit_id)
            ∧ cs.length ≠ candidates.length)
        ∨ (m = [] ∧ cs.length = candidates.length)) := by
  unfold retrieve_preprocessed_commits at hok
  cases hcol : collect_responses store (chunked (candidates.map Prod.fst))
      with
  | error e => rw [hcol] at hok; cases hok
  | ok responses =>
    rw [hcol] at hok
    simp only [Except.ok.injEq, Prod.mk.injEq] at hok
    obtain ⟨hm, hcs⟩ := hok
    refine ⟨responses.flatten, hcs.symm, ?_⟩
    have hlen : cs.length = responses.flatten.length := by
      rw [← hcs, List.length_map]
    have hids : cs.map Commit.commit_id
        = responses.flatten.map StoredCommit.commit_id := by
      rw [← hcs, List.map_map]
      rfl
    by_cases hne : responses.flatten.length = candidates.length
    · right
      rw [if_neg (by omega)] at hm
      exact ⟨hm.symm, by omega⟩
    · left
      rw [if_pos (by omega)] at hm
      refine ⟨?_, by omega⟩
      rw [← hm]
      unfold cache_diff_spec
      rw [hids]
      congr 1
      apply List.filter_congr
      intro p _
      rw [any_commit_id]

/-- Claim C4 (amended): the missing set is always a subset of the
candidate entries whose ids are absent from the store's response, the
hits are deserialized wire records whose stored features (and ids) are
kept, and the missing set equals the exact set difference
`candidateIds − idsReturnedByStore` whenever the returned ids are
pairwise distinct and all belong to the candidate set. -/
theorem C4_cache_reconciliation (store : List String → StoreResp)
    (candidates : List (String × RawCommit)) (m : List RawCommit)
    (cs : List Commit)
    (hok : retrieve_preprocessed_commits store candidates = .ok (m, cs)) :
    (∀ r ∈ m, r ∈ cache_diff_spec candidates (cs.map Commit.commit_id))
    ∧ ((cs.map Commit.commit_id).Nodup →
        (∀ i ∈ cs.map Commit.commit_id, i ∈ candidates.map Prod.fst) →
        m = cache_diff_spec candidates (cs.map Commit.commit_id))
    ∧ (∃ retrieved : List StoredCommit,
        cs = retrieved.map Commit.parse_obj)
    ∧ (∀ rc : StoredCommit, (Commit.parse_obj rc).features = rc.features
        ∧ (Commit.parse_obj rc).commit_id = rc.commit_id) := by
  obtain ⟨retrieved, hcs, hcases⟩ :=
    retrieve_ok_cases store candidates m cs hok
  refine ⟨?_, ?_, ⟨retrieved, hcs⟩, fun rc => ⟨rfl, rfl⟩⟩
  · rcases hcases with ⟨heq, _⟩ | ⟨hnil, _⟩
    · rw [heq]; intro r hr; exact hr
    · rw [hnil]; intro r hr; cases hr
  · intro hnodup hsub
    rcases hcases with ⟨heq, _⟩ | ⟨hnil, hlen⟩
    · exact heq
    · rw [hnil]
      have hall : ∀ x ∈ candidates.map Prod.fst,
          x ∈ cs.map Commit.commit_id := by
        apply mem_of_nodup_subset_len _ _ hnodup hsub
        rw [List.length_map, List.length_map, hlen]
      symm
      unfold cache_diff_spec
      have hfe : (candidates.filter
          (fun p => !((cs.map Commit.commit_id).any (fun i => i == p.1))))
          = [] := by
        apply List.eq_nil_iff_forall_not_mem.mpr
        intro p hp
        have hp2 := List.mem_filter.mp hp
        have hmem : p.1 ∈ cs.map Commit.commit_id :=
          hall p.1 (List.mem_map.mpr ⟨p, hp2.1, rfl⟩)
        have hany : ((cs.map Commit.commit_id).any (fun i => i == p.1))
            = true :=
          List.any_eq_true.mpr ⟨p.1, hmem, by simp⟩
        rw [hany] at hp2
        exact absurd hp2.2 (by decide)
      rw [hfe]
      rfl

/-- Counterexample for C4 as stated: when the store's response carries a
record whose id was never a candidate, the length shortcut of line 347
leaves `missing` empty although the set difference
`candidateIds − idsReturnedByStore` is not. -/
theorem C4_counterexample :
    retrieve_preprocessed_commits storeForeign [("a", rawA)]
      = .ok ([], [Commit.parse_obj ⟨"b", [], [], []⟩])
    ∧ cache_diff_spec [("a", rawA)]
        ([Commit.parse_obj ⟨"b", [], [], []⟩].map Commit.commit_id)
      = [rawA]
    ∧ ([] : List RawCommit) ≠ [rawA] := by
  refine ⟨rfl, rfl, by decide⟩

/-- Witness for C4: candidates `a`, `b`; the store returns the record
for `a` only, whose ids are distinct and all candidates, so the missing
list is exactly the set difference `{b}`. -/
theorem C4_cache_reconciliation_witness :
    retrieve_preprocessed_commits storeHitA [("a", rawA), ("b", rawB)]
      = .ok ([rawB], [Commit.parse_obj storedA])
    ∧ [rawB] = cache_diff_spec [("a", rawA), ("b", rawB)]
        ([Commit.parse_obj storedA].map Commit.commit_id) := by
  refine ⟨rfl, ?_⟩
  exact (C4_cache_reconciliation storeHitA [("a", rawA), ("b", rawB)]
    [rawB] [Commit.parse_obj storedA] rfl).2.1 (by decide) (by decide)

/-- Helper: whenever the twin short-circuit does not succeed (skipped,
raised, or no id match), `prospector` runs the main pipeline. -/
theorem twin_fallthrough (env : Env) (a : Args)
    (h : TwinNotSucceeding env a) :
    prospector env a = prospector_main_pipeline env a := by
  unfold prospector
  rcases h with h0 | h1 | ⟨e, he⟩ | ⟨cs, adv, hok, hno⟩
  · rw [if_neg (by rw [h0]; simp)]
  · rw [if_neg (by rw [h1]; simp)]
  · by_cases hcond : 0 < env.advisory.fixing_commit.length
        ∧ a.ignore_adv_refs = false
    · rw [if_pos hcond, he]
    · rw [if_neg hcond]
  · by_cases hcond : 0 < env.advisory.fixing_commit.length
        ∧ a.ignore_adv_refs = false
    · rw [if_pos hcond, hok]
      show (if 0 < cs.length ∧
          cs.any (fun c => env.advisory.fixing_commit.contains c.commit_id)
            = true then _ else prospector_main_pipeline env a)
        = prospector_main_pipeline env a
      rw [if_neg hno]
    · rw [if_neg hcond]

/-- Claim C5: when the filtered candidate count exceeds the configured
ceiling, the run returns the sentinel pair `(absent, candidateCount)`
(no preprocessing or ranking runs: the conclusion holds for every
store, feature extractor and rule engine). -/
theorem C5_hard_cap (env : Env) (a : Args) (p n : String)
    (cands : List (String × RawCommit)) (rej : Nat)
    (htwin : TwinNotSucceeding env a)
    (hiv : a.version_interval ≠ "")
    (hgpt : env.get_possible_tags env.tags a.version_interval = (p, n))
    (hpn : ¬(p = "" ∧ n = ""))
    (hfilter : env.filter_commits
      (get_commits env p n a.time_limit_before a.time_limit_after)
      = .ok (cands, rej))
    (hcap : cands.length > a.limit_candidates) :
    prospector env a = (.ok (.sentinel cands.length), none) := by
  rw [twin_fallthrough env a htwin,
    main_pipeline_reduce env a p n cands rej hiv hgpt hpn hfilter,
    if_pos hcap]

/-- Witness for C5: ceiling 2000 and 2001 surviving candidates yield
the sentinel pair `(absent, 2001)`. -/
theorem C5_hard_cap_witness :
    prospector envC5 argsC5 = (.ok (.sentinel 2001), none) := by
  have h := C5_hard_cap envC5 argsC5 "v1" "v2"
    (List.replicate 2001 ("x", rawA)) 0
    (Or.inl rfl) (by decide) rfl (by decide) rfl
    (by rw [List.length_replicate]; decide)
  have hl : (((List.replicate 2001 ("x", rawA)).length : Nat) : Int)
      = 2001 := by rw [List.length_replicate]; rfl
  rw [h, hl]

/-- Claim C6: when the twin short-circuit does not succeed, an empty
version-interval string yields the sentinel pair `(absent, -1)`, and a
supplied interval none of whose bounds resolves to a tag (tag
resolution returns `("", "")`) likewise yields `(absent, -1)`; in both
cases no candidate scan occurs (the conclusion holds for every
`create_commits` collaborator). -/
theorem C6_interval_guard (env : Env) (a : Args)
    (htwin : TwinNotSucceeding env a) :
    (a.version_interval = "" →
      prospector env a = (.ok (.sentinel (-1)), none))
    ∧ (a.version_interval ≠ "" →
      env.get_possible_tags env.tags a.version_interval = ("", "") →
      prospector env a = (.ok (.sentinel (-1)), none)) := by
  constructor
  · intro hempty
    rw [twin_fallthrough env a htwin]
    unfold prospector_main_pipeline
    rw [if_pos hempty]
  · intro hne hgpt
    rw [twin_fallthrough env a htwin]
    unfold prospector_main_pipeline
    rw [if_neg hne, hgpt]
    show (if "" = "" ∧ "" = "" then _ else _) = _
    rw [if_pos ⟨rfl, rfl⟩]

/-- Witness for C6: an empty interval (with a non-empty tag list) and a
never-resolving interval both yield the sentinel pair `(absent, -1)`. -/
theorem C6_interval_guard_witness :
    prospector envC6 argsC6 = (.ok (.sentinel (-1)), none)
    ∧ prospector envC6b argsC6b = (.ok (.sentinel (-1)), none) :=
  ⟨(C6_interval_guard envC6 argsC6 (Or.inl rfl)).1 rfl,
   (C6_interval_guard envC6b argsC6b (Or.inl rfl)).2 (by decide) rfl⟩

/-- Helper: inversion of `Except` bind. -/
theorem except_bind_ok {ε α β : Type} (x : Except ε α)
    (f : α → Except ε β) (v : β) (h : (x >>= f) = .ok v) :
    ∃ w, x = .ok w ∧ f w = .ok v := by
  cases x with
  | error e => exact absurd h (by simp [Bind.bind, Except.bind])
  | ok w => exact ⟨w, rfl, by simpa [Bind.bind, Except.bind] using h⟩

/-- Helper: a successful twin lookup returns at most 100 commits (the
top-100 truncation of line 80). -/
theorem find_twins_ok_length (env : Env) (ids : List String)
    (cs : List Commit) (adv : AdvisoryRecord)
    (hok : prospector_find_twins env ids = .ok (cs, adv)) :
    cs.length ≤ 100 := by
  unfold prospector_find_twins at hok
  obtain ⟨c0, _, hok⟩ := except_bind_ok _ _ _ hok
  obtain ⟨fc, _, hok⟩ := except_bind_ok _ _ _ hok
  obtain ⟨pre, _, hok⟩ := except_bind_ok _ _ _ hok
  obtain ⟨ranked, _, hok⟩ := except_bind_ok _ _ _ hok
  have hcs : ranked.take 100 = cs := by
    have := congrArg (fun r => match r with
      | Except.ok (l, _) => l
      | Except.error _ => []) hok
    simpa [pure, Except.pure] using this
  rw [← hcs]
  simp [List.length_take]

/-- Claim C7: when the advisory names fixing commits, the flag is off
and the twin lookup returns a non-empty ranked list containing one of
the supplied ids, the run marks `hasFixingCommit` and returns that list
(at most 100 commits) with no candidate scan, cache access, ranking or
tag aggregation (the conclusion holds for every such collaborator). -/
theorem C7_twin_short_circuit (env : Env) (a : Args) (cs : List Commit)
    (adv : AdvisoryRecord)
    (hfix : 0 < env.advisory.fixing_commit.length)
    (hign : a.ignore_adv_refs = false)
    (hok : prospector_find_twins env env.advisory.fixing_commit
      = .ok (cs, adv))
    (hne : 0 < cs.length)
    (hmatch : cs.any
      (fun c => env.advisory.fixing_commit.contains c.commit_id) = true) :
    prospector env a
      = (.ok (.success cs { adv with has_fixing_commit := true }), none)
    ∧ cs.length ≤ 100 := by
  refine ⟨?_, find_twins_ok_length env _ cs adv hok⟩
  unfold prospector
  rw [if_pos ⟨hfix, hign⟩, hok]
  show (if 0 < cs.length ∧
      cs.any (fun c => env.advisory.fixing_commit.contains c.commit_id)
        = true then _ else prospector_main_pipeline env a) = _
  rw [if_pos ⟨hne, hmatch⟩]

/-- Witness for C7: advisory id `abc123`, twin lookup returning it with
its twin `def456`: the run returns both with `hasFixingCommit` set. -/
theorem C7_twin_short_circuit_witness :
    prospector envC7 argsC7
      = (.ok (.success [⟨"abc123", [], [], []⟩, ⟨"def456", [], [], []⟩]
          ⟨0, ["abc123"], [], true⟩), none)
    ∧ ([⟨"abc123", [], [], []⟩,
        (⟨"def456", [], [], []⟩ : Commit)]).length ≤ 100 :=
  C7_twin_short_circuit envC7 argsC7
    [⟨"abc123", [], [], []⟩, ⟨"def456", [], [], []⟩] advisoryC7
    (by decide) rfl rfl (by decide) (by decide)

/-- Claim C8: a failed twin short-circuit — an exception from the
repository/filter/rank collaborators, or a result containing none of
the supplied ids — never aborts the run: `prospector` computes exactly
the full pipeline. -/
theorem C8_twin_failure_falls_through (env : Env) (a : Args)
    (hfix : 0 < env.advisory.fixing_commit.length)
    (hign : a.ignore_adv_refs = false)
    (hfail : (∃ e, prospector_find_twins env env.advisory.fixing_commit
        = .error e)
      ∨ (∃ cs adv,
          prospector_find_twins env env.advisory.fixing_commit
            = .ok (cs, adv)
          ∧ ¬(0 < cs.length ∧ cs.any
            (fun c => env.advisory.fixing_commit.contains c.commit_id)
              = true))) :
    prospector env a = prospector_main_pipeline env a := by
  apply twin_fallthrough
  rcases hfail with ⟨e, he⟩ | ⟨cs, adv, hok, hno⟩
  · exact Or.inr (Or.inr (Or.inl ⟨e, he⟩))
  · exact Or.inr (Or.inr (Or.inr ⟨cs, adv, hok, hno⟩))

/-- Witness for C8: a twin lookup that raises falls through to the full
pipeline. -/
theorem C8_twin_failure_falls_through_witness :
    prospector envC8 argsC8 = prospector_main_pipeline envC8 argsC8 :=
  C8_twin_failure_falls_through envC8 argsC8 (by decide) rfl
    (Or.inl ⟨"repo unreachable", rfl⟩)

/-- Helper: when the cache phase finds every candidate in the store,
the tail of the pipeline ranks the hits and records no write. -/
theorem pipeline_tail_full_hit (env : Env) (a : Args) (n : String)
    (cands : List (String × RawCommit)) (hits : List Commit)
    (hcache : cache_phase env.store_get a.use_backend cands
      = .proceed [] hits) :
    pipeline_tail env a n cands
      = (match env.apply_rules_and_ranking hits a.rules with
         | .error e => .error e
         | .ok ranked =>
           .ok (.success (tag_and_aggregate_commits ranked (some n))
             env.advisory),
         save_decision a.use_backend [] (hits.map Commit.to_dict)) := by
  unfold pipeline_tail
  rw [hcache]
  rfl

/-- Claim C10: when every candidate is a cache hit (`missing` empty) the
backend save is skipped even though the preprocessed commits are
non-empty; the `save_decision` guard yields no write when the backend
mode is `"never"`, and a recorded write implies the backend mode is not
`"never"`, at least one commit was locally preprocessed and the payload
is non-empty. -/
theorem C10_write_frame (env : Env) (a : Args) (p n : String)
    (cands : List (String × RawCommit)) (rej : Nat) (hits : List Commit)
    (hiv : a.version_interval ≠ "")
    (hgpt : env.get_possible_tags env.tags a.version_interval = (p, n))
    (hpn : ¬(p = "" ∧ n = ""))
    (hfilter : env.filter_commits
      (get_commits env p n a.time_limit_before a.time_limit_after)
      = .ok (cands, rej))
    (hcap : ¬ cands.length > a.limit_candidates)
    (hub : a.use_backend ≠ "never")
    (hretr : retrieve_preprocessed_commits env.store_get cands
      = .ok ([], hits)) :
    prospector_main_pipeline env a
      = (match env.apply_rules_and_ranking hits a.rules with
         | .error e => .error e
         | .ok ranked =>
           .ok (.success (tag_and_aggregate_commits ranked (some n))
             env.advisory),
         none)
    ∧ (∀ ub m pl, ub = "never" → save_decision ub m pl = none)
    ∧ (∀ ub m pl q, save_decision ub m pl = some q →
        ub ≠ "never" ∧ 0 < m.length ∧ 0 < pl.length) := by
  refine ⟨?_, ?_, ?_⟩
  · have hcache : cache_phase env.store_get a.use_backend cands
        = .proceed [] hits := by
      unfold cache_phase
      rw [if_pos hub, hretr]
    have hsave : save_decision a.use_backend []
        (hits.map Commit.to_dict) = none := by
      unfold save_decision
      exact if_neg (fun hcon => absurd hcon.2.2 (by decide))
    rw [main_pipeline_reduce env a p n cands rej hiv hgpt hpn hfilter,
      if_neg hcap, pipeline_tail_full_hit env a n cands hits hcache, hsave]
  · intro ub m pl hub2
    unfold save_decision
    exact if_neg (fun hcon => absurd hub2 hcon.2.1)
  · intro ub m pl q hq
    unfold save_decision at hq
    by_cases hcon : pl.length > 0 ∧ ub ≠ "never" ∧ m.length > 0
    · exact ⟨hcon.2.1, hcon.2.2, hcon.1⟩
    · rw [if_neg hcon] at hq
      cases hq

/-- Witness for C10: with candidates `a`, `c` both served by the store,
the run succeeds with the two hits and records no write. -/
theorem C10_write_frame_witness :
    prospector_main_pipeline envC10 argsC10
      = (.ok (.success [Commit.parse_obj storedA, Commit.parse_obj storedC]
          trivialAdvisory), none) := by
  have h := (C10_write_frame envC10 argsC10 "v1" "v2"
    [("a", rawA), ("c", rawC)] 0
    [Commit.parse_obj storedA, Commit.parse_obj storedC]
    (by decide) rfl (by decide) rfl (by decide) (by decide) rfl).1
  exact h.trans (by rfl)

/-- Counterexample for C1 as stated: in the scenario with candidates
`a`, `b`, `c` and store hits `a`, `c`, the payload pushed to the store
holds three records — the cache hits `a` and `c` included — not exactly
one record for `b` (line 251 serializes all preprocessed commits, hits
and locally preprocessed alike). -/
theorem C1_counterexample :
    prospector envC1 argsC1
      = (.ok (.success
          [Commit.parse_obj storedA, Commit.parse_obj storedC, commitB]
          envC1.advisory),
         some [storedA, storedC, Commit.to_dict commitB])
    ∧ [storedA, storedC, Commit.to_dict commitB].length = 3
    ∧ [storedA, storedC, Commit.to_dict commitB].map StoredCommit.commit_id
      = ["a", "c", "b"] := by
  refine ⟨rfl, rfl, rfl⟩

/-- Claim C1 (amended): cache reconciliation computes `missing = {b}`
exactly, and the payload pushed after local preprocessing holds one
record per preprocessed commit — the cache hits `a`, `c` and the
locally preprocessed `b` — exactly one of which is for the missing
commit `b`. -/
theorem C1_payload_per_preprocessed :
    retrieve_preprocessed_commits envC1.store_get
        [("a", rawA), ("b", rawB), ("c", rawC)]
      = .ok ([rawB], [Commit.parse_obj storedA, Commit.parse_obj storedC])
    ∧ prospector envC1 argsC1
      = (.ok (.success
          [Commit.parse_obj storedA, Commit.parse_obj storedC, commitB]
          envC1.advisory),
         some [storedA, storedC, Commit.to_dict commitB])
    ∧ ([storedA, storedC, Commit.to_dict commitB].filter
        (fun r => r.commit_id == "b")).length = 1 := by
  refine ⟨rfl, rfl, rfl⟩

end ProspectorKB
